import Mathlib

set_option maxRecDepth 100000

/-!
Verification of the core logic of the Flask property-search service
(`src/app.py`): the free-text query classifier and SQL predicate builder
(`add_filters`), the duplicate/variant classifier (`api_duplicates`), the
grouped statistics endpoint (`api_stats`), the numeric-argument parsing
(`parse_int`, `api_property_details`), and the supporting helpers.

The Python code is shallowly embedded: records and request arguments are
explicit structures, absent values are `Option`, pandas masks are `List Bool`,
SQL text is `String` and bound parameters are explicit lists.  Character-level
operations (`str.upper`, `str.lower`, `str.strip`, regular-expression
matching) are modelled over ASCII, which is the alphabet the patterns in the
source use.
-/

/-! ## Character and string helpers (Python `str` operations, ASCII) -/

/-- ASCII decimal digit, the `\d` class of the source's regular expressions. -/
def isDigitC (c : Char) : Bool := decide (48 ≤ c.toNat ∧ c.toNat ≤ 57)

/-- ASCII upper-case letter, the `[A-Z]` class of the source's regular expressions. -/
def isUpperAZ (c : Char) : Bool := decide (65 ≤ c.toNat ∧ c.toNat ≤ 90)

/-- ASCII lower-case letter. -/
def isLowerAZ (c : Char) : Bool := decide (97 ≤ c.toNat ∧ c.toNat ≤ 122)

/-- Python `str.upper` on one character (ASCII range). -/
def pyUpperC (c : Char) : Char := if isLowerAZ c then Char.ofNat (c.toNat - 32) else c

/-- Python `str.lower` on one character (ASCII range). -/
def pyLowerC (c : Char) : Char := if isUpperAZ c then Char.ofNat (c.toNat + 32) else c

/-- Whitespace as recognised by Python `str.strip` / the regex class `\s`:
space, tab, newline, vertical tab, form feed, carriage return. -/
def isSpaceC (c : Char) : Bool :=
  decide (c.toNat = 32 ∨ c.toNat = 9 ∨ c.toNat = 10 ∨ c.toNat = 11 ∨ c.toNat = 12 ∨ c.toNat = 13)

/-- Python `str.strip` on a character list. -/
def pyStripList (l : List Char) : List Char :=
  ((l.dropWhile isSpaceC).reverse.dropWhile isSpaceC).reverse

/-- Python `str.strip`. -/
def pyStrip (s : String) : String := String.mk (pyStripList s.data)

/-- Python `str.upper` (ASCII). -/
def pyUpper (s : String) : String := String.mk (s.data.map pyUpperC)

/-- Python `str.lower` (ASCII). -/
def pyLower (s : String) : String := String.mk (s.data.map pyLowerC)

/-- Python `s.replace(" ", "")`: drop every space character. -/
def removeSpaces (s : String) : String :=
  String.mk (s.data.filter (fun c => decide (c ≠ ' ')))

/-- Python `s.isdigit()` for the ASCII range: non-empty and all digits. -/
def pyIsDigitStr (s : String) : Bool := decide (s.data ≠ []) && s.data.all isDigitC

/-- `clean_postal` from `src/app.py`: `(s or "").upper().replace(" ", "")`.
(The `None` case is handled by callers passing the empty string.) -/
def clean_postal (s : String) : String := removeSpaces (pyUpper s)

/-! ## Token classification patterns (`add_filters`, lines 126–134)

The source tests, for each free-text token `t` (with `token_clean =
clean_postal(t)`):
  * `is_numberish` : `re.fullmatch(r"-?\d+(\.\d+)?", t)`
  * `is_fsa`       : `re.fullmatch(r"[A-Z]\d[A-Z]", token_clean)`
  * `is_full_postal`: `re.fullmatch(r"[A-Z]\d[A-Z]\d[A-Z]\d", token_clean)`
  * `is_us_zip5`   : `re.fullmatch(r"\d{5}", t)`
  * `is_us_zip9`   : `re.fullmatch(r"\d{5}-\d{4}", t)`
-/

/-- Tail of the numeric pattern after an optional sign: `\d+(\.\d+)?`
matched against the whole remaining input. -/
def numCore (cs : List Char) : Bool :=
  let ds := cs.takeWhile isDigitC
  let rest := cs.dropWhile isDigitC
  !ds.isEmpty &&
    (rest.isEmpty ||
      (match rest with
       | r :: fs => decide (r = '.') && !fs.isEmpty && fs.all isDigitC
       | [] => false))

/-- `re.fullmatch(r"-?\d+(\.\d+)?", t)` on a character list. -/
def numberishL (l : List Char) : Bool :=
  match l with
  | [] => false
  | c :: cs => if c = '-' then numCore cs else numCore (c :: cs)

/-- `re.fullmatch(r"-?\d+(\.\d+)?", t)`: optionally signed decimal token. -/
def numberish (t : String) : Bool := numberishL t.data

/-- `re.fullmatch(r"[A-Z]\d[A-Z]", s)` on a character list. -/
def fsaL (l : List Char) : Bool :=
  match l with
  | [a, b, c] => isUpperAZ a && isDigitC b && isUpperAZ c
  | _ => false

/-- `re.fullmatch(r"[A-Z]\d[A-Z]", s)`: Canadian forward sortation area. -/
def fsaMatch (s : String) : Bool := fsaL s.data

/-- `re.fullmatch(r"[A-Z]\d[A-Z]\d[A-Z]\d", s)` on a character list. -/
def fullPostalL (l : List Char) : Bool :=
  match l with
  | [a, b, c, d, e, f] =>
      isUpperAZ a && isDigitC b && isUpperAZ c && isDigitC d && isUpperAZ e && isDigitC f
  | _ => false

/-- `re.fullmatch(r"[A-Z]\d[A-Z]\d[A-Z]\d", s)`: full Canadian postal code. -/
def fullPostalMatch (s : String) : Bool := fullPostalL s.data

/-- `re.fullmatch(r"\d{5}", t)` on a character list. -/
def zip5L (l : List Char) : Bool :=
  match l with
  | [a, b, c, d, e] => isDigitC a && isDigitC b && isDigitC c && isDigitC d && isDigitC e
  | _ => false

/-- `re.fullmatch(r"\d{5}", t)`: five-digit US ZIP code. -/
def zip5Match (t : String) : Bool := zip5L t.data

/-- `re.fullmatch(r"\d{5}-\d{4}", t)` on a character list. -/
def zip9L (l : List Char) : Bool :=
  match l with
  | [a, b, c, d, e, h, f, g, i, j] =>
      isDigitC a && isDigitC b && isDigitC c && isDigitC d && isDigitC e &&
        decide (h = '-') && isDigitC f && isDigitC g && isDigitC i && isDigitC j
  | _ => false

/-- `re.fullmatch(r"\d{5}-\d{4}", t)`: hyphenated nine-digit US ZIP code. -/
def zip9Match (t : String) : Bool := zip9L t.data

/-! ## Quoted-phrase extraction and tokenisation (`add_filters`, lines 96–121)

`re.finditer(r'"(.*?)"', q)` pairs each `"` with the next `"`; an unmatched
trailing quote produces no further match.  `re.sub` with the same pattern
replaces each matched pair by a single space.  The remaining free text is
split on `[,\s()]+` and empty pieces are dropped (the `t.strip()` in the
comprehension is the identity because the split separators include all
whitespace).
-/

/-- Worker for `extractQuoted`: `acc = some body` when inside a quoted region,
holding the reversed characters read so far.  The non-greedy pattern pairs each
`"` with the next one; an unmatched trailing `"` yields no further match. -/
def exqGo : Option (List Char) → List Char → List String
  | _, [] => []
  | none, c :: cs => if c = '"' then exqGo (some []) cs else exqGo none cs
  | some acc, c :: cs =>
      if c = '"' then pyStrip (String.mk acc.reverse) :: exqGo none cs
      else exqGo (some (c :: acc)) cs

/-- The quoted phrases of `re.finditer(r'"(.*?)"', ...)`, already stripped
(`m.group(1).strip()`). -/
def extractQuoted (l : List Char) : List String := exqGo none l

/-- Worker for `removeQuoted`: while inside a quoted region, `acc` holds the
reversed pending characters including the opening `"`; if the region never
closes they are emitted unchanged. -/
def rmqGo : Option (List Char) → List Char → List Char
  | none, [] => []
  | some acc, [] => acc.reverse
  | none, c :: cs => if c = '"' then rmqGo (some [c]) cs else c :: rmqGo none cs
  | some acc, c :: cs => if c = '"' then ' ' :: rmqGo none cs else rmqGo (some (c :: acc)) cs

/-- `re.sub(r'"(.*?)"', " ", ...)`: each quoted pair becomes one space; an
unmatched quote is kept as ordinary text. -/
def removeQuoted (l : List Char) : List Char := rmqGo none l

/-- A separator of `re.split(r"[,\s()]+", ...)`. -/
def isSepC (c : Char) : Bool := decide (c = ',' ∨ c = '(' ∨ c = ')') || isSpaceC c

/-- Worker for `splitTokens`: `cur` is the reversed current token. -/
def splitGo (cur : List Char) : List Char → List String
  | [] => if cur.isEmpty then [] else [String.mk cur.reverse]
  | c :: cs =>
      if isSepC c then
        if cur.isEmpty then splitGo [] cs
        else String.mk cur.reverse :: splitGo [] cs
      else splitGo (c :: cur) cs

/-- `[t.strip() for t in re.split(r"[,\s()]+", s) if t.strip()]`. -/
def splitTokens (s : String) : List String := splitGo [] s.data

/-! ## The SQL predicate builder `add_filters` (lines 85–230)

`REGION_SQL` is fixed at startup from the schema flags `HAS_PROVINCE` /
`HAS_STATE`; the embedding carries those two booleans.  Request arguments are
`Option String` (absent = `none`); Python truthiness makes the empty string
behave like an absent argument.
-/

/-- The request arguments consulted by `add_filters`. -/
structure Args where
  q : Option String := none
  address : Option String := none
  latitude : Option String := none
  longitude : Option String := none
  postcode : Option String := none
  city : Option String := none
  agent : Option String := none
  broker : Option String := none
  province : Option String := none
  state : Option String := none
deriving DecidableEq

/-- Python truthiness of `args.get(...)`: `None` and `""` are falsy. -/
def getTruthy (o : Option String) : Option String :=
  match o with
  | none => none
  | some s => if s = "" then none else some s

/-- `REGION_SQL` (lines 29–32), from `HAS_PROVINCE` and `HAS_STATE`. -/
def regionSql (hp hs : Bool) : String :=
  if hp && hs then "COALESCE(province, state)"
  else if hp then "province" else "state"

/-- The seven `OR`-ed field comparisons shared by every free-text clause. -/
def fieldsCore (hp hs : Bool) : String :=
  " AND ( address LIKE ? COLLATE NOCASE OR city LIKE ? COLLATE NOCASE OR " ++
    regionSql hp hs ++
    " LIKE ? COLLATE NOCASE OR agent LIKE ? COLLATE NOCASE OR broker LIKE ? COLLATE NOCASE" ++
    " OR CAST(latitude AS TEXT) LIKE ? OR CAST(longitude AS TEXT) LIKE ?"

/-- Clause appended for quoted phrases and generic tokens: postal compared with
spaces stripped from both sides. -/
def clauseGen (hp hs : Bool) : String :=
  fieldsCore hp hs ++ " OR REPLACE(postal,\x27 \x27,\x27\x27) LIKE REPLACE(?,\x27 \x27,\x27\x27))"

/-- Clause appended for postal/ZIP tokens: postal compared against the
caller-side cleaned pattern. -/
def clauseKeep (hp hs : Bool) : String :=
  fieldsCore hp hs ++ " OR REPLACE(postal,\x27 \x27,\x27\x27) LIKE ?)"

/-- One quoted phrase (lines 101–117): a substring group over all fields. -/
def add_filters_phrase (hp hs : Bool) (sp : String × List String) (phrase : String) :
    String × List String :=
  if phrase = "" then sp
  else
    let like := "%" ++ phrase ++ "%"
    (sp.1 ++ clauseGen hp hs, sp.2 ++ [like, like, like, like, like, like, like, like])

/-- `t.split("-")[0]`. -/
def hyphenHead (t : String) : String :=
  String.mk (t.data.takeWhile (fun c => decide (c ≠ '-')))

/-- One free-text token (lines 122–180): classify and append the matching
`OR` group. -/
def add_filters_token (hp hs : Bool) (sp : String × List String) (t : String) :
    String × List String :=
  let like := "%" ++ t ++ "%"
  let tokenClean := clean_postal t
  let isNumberish := numberish t
  let latlonLike := if isNumberish then pyStrip t ++ "%" else like
  if fsaMatch tokenClean || fullPostalMatch tokenClean then
    (sp.1 ++ clauseKeep hp hs,
     sp.2 ++ [like, like, like, like, like, latlonLike, latlonLike, tokenClean ++ "%"])
  else if zip5Match t || zip9Match t then
    (sp.1 ++ clauseKeep hp hs,
     sp.2 ++ [like, like, like, like, like, latlonLike, latlonLike, hyphenHead t ++ "%"])
  else
    (sp.1 ++ clauseGen hp hs,
     sp.2 ++ [like, like, like, like, like, latlonLike, latlonLike, like])

/-- The free-text stage of `add_filters` (lines 92–180). -/
def add_filters_q (hp hs : Bool) (sp : String × List String) (a : Args) :
    String × List String :=
  match getTruthy a.q with
  | none => sp
  | some q =>
      let qs := pyStrip q
      let phrases := extractQuoted qs.data
      let freeText := pyStrip (String.mk (removeQuoted qs.data))
      let sp := phrases.foldl (add_filters_phrase hp hs) sp
      if freeText ≠ "" then (splitTokens freeText).foldl (add_filters_token hp hs) sp
      else sp

/-- The `address` filter (lines 182–189). -/
def add_filters_address (sp : String × List String) (a : Args) : String × List String :=
  match getTruthy a.address with
  | none => sp
  | some addr =>
      if pyIsDigitStr addr then
        (sp.1 ++ " AND address LIKE ? COLLATE NOCASE", sp.2 ++ [addr ++ " %"])
      else
        (sp.1 ++ " AND REPLACE(address, \x27 \x27, \x27\x27) LIKE ? COLLATE NOCASE",
         sp.2 ++ ["%" ++ removeSpaces addr ++ "%"])

/-- The `latitude` filter (lines 191–195). -/
def add_filters_lat (sp : String × List String) (a : Args) : String × List String :=
  match getTruthy a.latitude with
  | none => sp
  | some v => (sp.1 ++ " AND CAST(latitude AS TEXT) LIKE ?", sp.2 ++ [pyStrip v ++ "%"])

/-- The `longitude` filter (lines 197–201). -/
def add_filters_lon (sp : String × List String) (a : Args) : String × List String :=
  match getTruthy a.longitude with
  | none => sp
  | some v => (sp.1 ++ " AND CAST(longitude AS TEXT) LIKE ?", sp.2 ++ [pyStrip v ++ "%"])

/-- The `postcode` filter (lines 203–207). -/
def add_filters_postcode (sp : String × List String) (a : Args) : String × List String :=
  match getTruthy a.postcode with
  | none => sp
  | some v =>
      (sp.1 ++ " AND REPLACE(postal,\x27 \x27,\x27\x27) LIKE ?", sp.2 ++ [clean_postal v ++ "%"])

/-- The `city` filter (lines 209–212). -/
def add_filters_city (sp : String × List String) (a : Args) : String × List String :=
  match getTruthy a.city with
  | none => sp
  | some v => (sp.1 ++ " AND city LIKE ?", sp.2 ++ ["%" ++ v ++ "%"])

/-- The `agent` filter (lines 214–217). -/
def add_filters_agent (sp : String × List String) (a : Args) : String × List String :=
  match getTruthy a.agent with
  | none => sp
  | some v => (sp.1 ++ " AND agent LIKE ?", sp.2 ++ ["%" ++ v ++ "%"])

/-- The `broker` filter (lines 219–222). -/
def add_filters_broker (sp : String × List String) (a : Args) : String × List String :=
  match getTruthy a.broker with
  | none => sp
  | some v => (sp.1 ++ " AND broker LIKE ?", sp.2 ++ ["%" ++ v ++ "%"])

/-- The `province`/`state` filter (lines 224–228):
`args.get("province") or args.get("state")`. -/
def add_filters_region (hp hs : Bool) (sp : String × List String) (a : Args) :
    String × List String :=
  match (match getTruthy a.province with
         | some v => some v
         | none => getTruthy a.state) with
  | none => sp
  | some v =>
      let v := pyStrip v
      (sp.1 ++ " AND UPPER(" ++ regionSql hp hs ++ ") LIKE UPPER(?)", sp.2 ++ [v ++ "%"])

/-- `add_filters(sql, params, args)` (lines 85–230): thread the pair through
every stage in source order. -/
def add_filters (hp hs : Bool) (sql : String) (params : List String) (a : Args) :
    String × List String :=
  add_filters_region hp hs
    (add_filters_broker
      (add_filters_agent
        (add_filters_city
          (add_filters_postcode
            (add_filters_lon
              (add_filters_lat
                (add_filters_address
                  (add_filters_q hp hs (sql, params) a) a) a) a) a) a) a) a) a

/-! ## SQLite `LIKE` semantics

Used to state what the builder's patterns mean: `%` matches any sequence,
`_` any single character; matching is ASCII case-insensitive (SQLite's
default, and the `COLLATE NOCASE` columns behave the same way).
-/

/-- Worker for `likeM`; every step consumes pattern or text, so the fuel
`pat.length + txt.length + 1` supplied by `likeM` never runs out. -/
def likeMF : Nat → List Char → List Char → Bool
  | 0, _, _ => false
  | _ + 1, [], [] => true
  | _ + 1, [], _ :: _ => false
  | fuel + 1, p :: ps, [] => if p = '%' then likeMF fuel ps [] else false
  | fuel + 1, p :: ps, c :: ts =>
      if p = '%' then likeMF fuel ps (c :: ts) || likeMF fuel (p :: ps) ts
      else if p = '_' then likeMF fuel ps ts
      else decide (pyLowerC p = pyLowerC c) && likeMF fuel ps ts

/-- `likeM pat txt`: does the `LIKE` pattern match the whole text? -/
def likeM (pat txt : List Char) : Bool := likeMF (pat.length + txt.length + 1) pat txt

/-- String-level `LIKE`. -/
def likeStr (pat txt : String) : Bool := likeM pat.data txt.data

/-! ## `parse_int` (lines 40–45) and Python `int(...)` -/

/-- Value of a non-empty all-digit character run. -/
def digitsToNat (cs : List Char) : Nat := cs.foldl (fun a c => a * 10 + (c.toNat - 48)) 0

/-- Unsigned part of Python `int(str)`: one or more ASCII digits.
(PEP 515 underscore separators are not modelled.) -/
def pyIntDigits (cs : List Char) : Option Nat :=
  if cs.isEmpty || !cs.all isDigitC then none else some (digitsToNat cs)

/-- Python `int(s)` on a string: surrounding whitespace allowed, optional
sign, decimal digits; anything else raises `ValueError` (`none`). -/
def pyInt (s : String) : Option Int :=
  match pyStripList s.data with
  | '-' :: rest => (pyIntDigits rest).map (fun n => -(n : Int))
  | '+' :: rest => (pyIntDigits rest).map (fun n => (n : Int))
  | rest => (pyIntDigits rest).map (fun n => (n : Int))

/-- `parse_int(v, default)` (lines 40–45): `None` and unparsable values both
fall back to the default. -/
def parse_int (v : Option String) (default : Option Int) : Option Int :=
  match v with
  | none => default
  | some s =>
      match pyInt s with
      | some n => some n
      | none => default

/-! ## `api_property_details` (lines 770–880)

The handler builds a query over the external `property_details` store.  The
`int(...)` / `float(...)` conversions happen *outside* the `try` block, so a
failed conversion raises an uncaught `ValueError` and the framework answers
with a 500 server error.  Only the query construction is modelled (the store
itself is an external collaborator).
-/

/-- Result of Python `float(str)` (exponent-free decimal forms, the special
`inf`/`infinity`/`nan` spellings; exponent notation is not modelled). -/
inductive PyFloat where
  | num (q : ℚ)
  | posInf
  | negInf
  | nan
deriving DecidableEq

/-- Unsigned decimal body of `float(...)`: `d+`, `d+.d*` or `.d+`. -/
def pyFloatBody (cs : List Char) : Option ℚ :=
  let ip := cs.takeWhile isDigitC
  let rest := cs.dropWhile isDigitC
  match rest with
  | [] => if ip.isEmpty then none else some ((digitsToNat ip : ℚ))
  | '.' :: fs =>
      if !fs.all isDigitC then none
      else if ip.isEmpty && fs.isEmpty then none
      else some ((digitsToNat ip : ℚ) + (digitsToNat fs : ℚ) / ((10 : ℚ) ^ fs.length))
  | _ => none

/-- Python `float(s)`. -/
def pyFloat (s : String) : Option PyFloat :=
  let body := fun (cs : List Char) (neg : Bool) =>
    let low := cs.map pyLowerC
    if low = "inf".data ∨ low = "infinity".data then
      some (if neg then PyFloat.negInf else PyFloat.posInf)
    else if low = "nan".data then some PyFloat.nan
    else (pyFloatBody cs).map (fun q => PyFloat.num (if neg then -q else q))
  match pyStripList s.data with
  | '-' :: rest => body rest true
  | '+' :: rest => body rest false
  | rest => body rest false

/-- A bound parameter of the details query: string, integer or float. -/
inductive PVal where
  | s (v : String)
  | i (v : Int)
  | f (v : PyFloat)
deriving DecidableEq

/-- The request arguments consulted by `api_property_details`. -/
structure DetailsArgs where
  address : Option String := none
  city : Option String := none
  pin : Option String := none
  bedrooms : Option String := none
  min_bedrooms : Option String := none
  bathrooms : Option String := none
  min_value : Option String := none
  max_value : Option String := none
  year_built : Option String := none
  has_pool : Option String := none
  has_garage : Option String := none
  zoning : Option String := none
  limit : Option String := none
deriving DecidableEq

/-- One `int(...)`-converted filter: appends the clause and parameter, or
raises `ValueError` exactly as `int(v)` does. -/
def detailsIntStep (st : String × List PVal) (o : Option String) (clause : String) :
    Except String (String × List PVal) :=
  match getTruthy o with
  | none => .ok st
  | some v =>
      match pyInt v with
      | some n => .ok (st.1 ++ clause, st.2 ++ [PVal.i n])
      | none =>
          .error ("invalid literal for int() with base 10: \x27" ++ v ++ "\x27")

/-- One `float(...)`-converted filter. -/
def detailsFloatStep (st : String × List PVal) (o : Option String) (clause : String) :
    Except String (String × List PVal) :=
  match getTruthy o with
  | none => .ok st
  | some v =>
      match pyFloat v with
      | some q => .ok (st.1 ++ clause, st.2 ++ [PVal.f q])
      | none => .error ("could not convert string to float: \x27" ++ v ++ "\x27")

/-- Query construction of `api_property_details` (lines 785–860), in source
order; `.error` is an uncaught `ValueError`. -/
def buildDetailsQuery (a : DetailsArgs) : Except String (String × List PVal) :=
  let st := ("SELECT * FROM property_details WHERE 1=1", ([] : List PVal))
  let st := match getTruthy a.address with
    | none => st
    | some v => (st.1 ++ " AND address LIKE ? COLLATE NOCASE", st.2 ++ [PVal.s ("%" ++ v ++ "%")])
  let st := match getTruthy a.city with
    | none => st
    | some v => (st.1 ++ " AND city LIKE ? COLLATE NOCASE", st.2 ++ [PVal.s ("%" ++ v ++ "%")])
  let st := match getTruthy a.pin with
    | none => st
    | some v => (st.1 ++ " AND pin = ?", st.2 ++ [PVal.s v])
  (detailsIntStep st a.bedrooms " AND bedrooms = ?").bind (fun st =>
  (detailsIntStep st a.min_bedrooms " AND bedrooms >= ?").bind (fun st =>
  (detailsIntStep st a.bathrooms " AND full_bathrooms = ?").bind (fun st =>
  (detailsFloatStep st a.min_value " AND assessed_value >= ?").bind (fun st =>
  (detailsFloatStep st a.max_value " AND assessed_value <= ?").bind (fun st =>
  (detailsIntStep st a.year_built " AND year_built = ?").bind (fun st =>
  let st := match getTruthy a.has_pool with
    | none => st
    | some v =>
        if pyLower v = "true" then
          (st.1 ++ " AND (indoor_pool = \x27Y\x27 OR outdoor_pool = \x27Y\x27)", st.2)
        else st
  let st := match getTruthy a.has_garage with
    | none => st
    | some v => if pyLower v = "true" then (st.1 ++ " AND garage_spaces > 0", st.2) else st
  let st := match getTruthy a.zoning with
    | none => st
    | some v => (st.1 ++ " AND zoning = ?", st.2 ++ [PVal.s v])
  let st := (st.1 ++ " LIMIT ?", st.2 ++ [PVal.i ((parse_int a.limit (some 100)).getD 100)])
  .ok st))))))

/-- Observable outcome of the handler: a successful query, or an uncaught
exception surfaced by the framework as a 500 server error (never a 4xx
client error). -/
inductive DetailsOutcome where
  | ok (sql : String) (params : List PVal)
  | uncaught (msg : String)
deriving DecidableEq

/-- `api_property_details`: conversion errors escape the handler. -/
def api_property_details (a : DetailsArgs) : DetailsOutcome :=
  match buildDetailsQuery a with
  | .ok st => .ok st.1 st.2
  | .error m => .uncaught m

/-! ## Records and the duplicate/variant classifier `api_duplicates`
(lines 430–539)

A database row is embedded as a record of optional strings (`none` = SQL
`NULL`, which pandas turns into `""` via `fillna("")`).  The table may store
the region under `state` or `province`; the schema flags `hs`/`hp` say which
columns exist, mirroring the `if "state" in df.columns / elif "province"`
dispatch of the source.
-/

/-- One row of the `properties` table. -/
structure Rec where
  address : Option String := none
  city : Option String := none
  province : Option String := none
  state : Option String := none
  postal : Option String := none
  price : Option String := none
  agent : Option String := none
  broker : Option String := none
  latitude : Option String := none
  longitude : Option String := none
deriving DecidableEq

/-- `fillna("") → lower → strip`, the normalisation of address/city/agent/broker. -/
def lowerStripClean (o : Option String) : String := pyStrip (pyLower (o.getD ""))

/-- `address_clean` (line 459). -/
def addressClean (r : Rec) : String := lowerStripClean r.address

/-- `city_clean` (line 460). -/
def cityClean (r : Rec) : String := lowerStripClean r.city

/-- `postal_clean` (line 461): upper-cased, spaces removed. -/
def postalClean (r : Rec) : String := clean_postal (r.postal.getD "")

/-- `province_clean` (lines 463–468): prefers the `state` column, then
`province`, else the constant empty string. -/
def provinceClean (hs hp : Bool) (r : Rec) : String :=
  if hs then lowerStripClean r.state
  else if hp then lowerStripClean r.province
  else ""

/-- `price_clean` (line 472): trimmed raw string, deliberately not parsed. -/
def priceClean (r : Rec) : String := pyStrip (r.price.getD "")

/-- `agent_clean` (line 473). -/
def agentClean (r : Rec) : String := lowerStripClean r.agent

/-- `broker_clean` (line 474). -/
def brokerClean (r : Rec) : String := lowerStripClean r.broker

/-- `lat_clean` (line 475). -/
def latClean (r : Rec) : String := pyStrip (r.latitude.getD "")

/-- `lon_clean` (line 476). -/
def lonClean (r : Rec) : String := pyStrip (r.longitude.getD "")

/-- The property-identity key `property_keys` (line 470). -/
def propKey (hs hp : Bool) (r : Rec) : String × String × String × String :=
  (addressClean r, cityClean r, provinceClean hs hp r, postalClean r)

/-- The full-identity key `all_keys` (line 478): the property key extended by
price/agent/broker/latitude/longitude. -/
def fullKey (hs hp : Bool) (r : Rec) :
    (String × String × String × String) × String × String × String × String × String :=
  (propKey hs hp r, priceClean r, agentClean r, brokerClean r, latClean r, lonClean r)

/-- Worker for `dupFirst`: `seen` is the set of keys already encountered. -/
def dupFirstGo {α β : Type} [DecidableEq β] (k : α → β) : List β → List α → List Bool
  | _, [] => []
  | seen, x :: xs => decide (k x ∈ seen) :: dupFirstGo k (k x :: seen) xs

/-- `df.duplicated(subset=key, keep='first')`: marks every occurrence after
the first of its key. -/
def dupFirst {α β : Type} [DecidableEq β] (k : α → β) (l : List α) : List Bool :=
  dupFirstGo k [] l

/-- `df.duplicated(subset=key, keep=False)`: marks every row whose key occurs
at least twice. -/
def dupAny {α β : Type} [DecidableEq β] (k : α → β) (l : List α) : List Bool :=
  l.map (fun x => decide (2 ≤ (l.map k).countP (fun y => decide (y = k x))))

/-- `df[mask]`: keep the rows whose mask entry is true. -/
def maskFilter {α : Type} : List α → List Bool → List α
  | x :: xs, b :: bs => if b then x :: maskFilter xs bs else maskFilter xs bs
  | _, _ => []

/-- `df.groupby(key)`: group rows of `l` by key (one entry per distinct key;
only membership and sizes of the groups are consumed). -/
def groupsBy {α β : Type} [DecidableEq β] (k : α → β) (l : List α) : List (β × List α) :=
  ((l.map k).dedup).map (fun b => (b, l.filter (fun x => decide (k x = b))))

/-- `nunique`: number of distinct values. -/
def nuniq {β : Type} [DecidableEq β] (l : List β) : Nat := l.dedup.length

/-- Python `round(x)`: nearest integer, ties to even.  (The source rounds an
IEEE double; the embedding rounds the exact rational, which agrees except for
binary-representation artefacts.) -/
def roundHalfEven (q : ℚ) : ℤ :=
  let f := ⌊q + 1/2⌋
  if q + 1/2 = (f : ℚ) ∧ f % 2 ≠ 0 then f - 1 else f

/-- Python `round(x, 2)`. -/
def round2 (q : ℚ) : ℚ := ((roundHalfEven (q * 100) : ℚ)) / 100

/-- The `summary` object of `api_duplicates` (lines 520–531). -/
structure DupSummary where
  trueDupCount : Nat
  trueDupGroups : Nat
  priceDiffers : Nat
  agentDiffers : Nat
  brokerDiffers : Nat
  percentDuplicates : ℚ
deriving DecidableEq

/-- The all-zero summary the specification promises for an empty input. -/
def zeroSummary : DupSummary :=
  { trueDupCount := 0, trueDupGroups := 0, priceDiffers := 0, agentDiffers := 0,
    brokerDiffers := 0, percentDuplicates := 0 }

/-- The JSON response of `api_duplicates`.  On the empty-input path the
source answers `{"total_rows": 0, "summary": {}, "duplicates": []}` — the
`returned`/`type` keys and every summary count are absent, hence `Option`. -/
structure DupResp where
  totalRows : Nat
  returned : Option Nat
  typ : Option String
  summary : Option DupSummary
  duplicates : List Rec
deriving DecidableEq

/-- Lexicographic code-point comparison of character lists (the ordering
pandas uses on string columns). -/
def charsLe : List Char → List Char → Bool
  | [], _ => true
  | _ :: _, [] => false
  | c :: cs, d :: ds =>
      if c.toNat < d.toNat then true
      else if c.toNat = d.toNat then charsLe cs ds
      else false

/-- Ordering used by `result_df.sort_values("address")` (raw address column,
nulls last). -/
def addrLe (x y : Rec) : Bool :=
  match x.address, y.address with
  | none, none => true
  | none, some _ => false
  | some _, none => true
  | some a, some b => charsLe a.data b.data

/-- Count of `variants` contributions (lines 491–499) for one field
projection `fieldOf`. -/
def variantCount {β : Type} [DecidableEq β] (groups : List ((String × String × String × String) × List Rec))
    (fieldOf : Rec → β) : Nat :=
  (groups.map (fun g =>
    if 1 < g.2.length ∧ 1 < nuniq (g.2.map fieldOf) then g.2.length - 1 else 0)).sum

/-- Result-row selection of `api_duplicates` (lines 501–509): modes `true`
and `variants` are recognised, anything else falls through to the `all`
behaviour. -/
def dupSelect (hs hp : Bool) (rs : List Rec) (dupType : String) : List Rec :=
  if dupType = "true" then maskFilter rs (dupFirst (fullKey hs hp) rs)
  else if dupType = "variants" then
    maskFilter rs (List.zipWith (fun a b => a && !b)
      (dupFirst (propKey hs hp) rs) (dupFirst (fullKey hs hp) rs))
  else maskFilter rs (dupFirst (propKey hs hp) rs)

/-- `api_duplicates` (lines 430–539), from the already-filtered row set.
`typeArg` is `args.get("type", "all")`. -/
def api_duplicates (hs hp : Bool) (rs : List Rec) (typeArg : Option String) : DupResp :=
  let dupType := pyLower (typeArg.getD "all")
  match rs with
  | [] => { totalRows := 0, returned := none, typ := none, summary := none, duplicates := [] }
  | _ :: _ =>
      let totalRows := rs.length
      let trueDupMask := dupFirst (fullKey hs hp) rs
      let trueDupCount := trueDupMask.countP (fun b => b)
      let trueDupGroups :=
        if trueDupMask.any (fun b => b) then
          nuniq ((maskFilter rs (dupAny (fullKey hs hp) rs)).map (fullKey hs hp))
        else 0
      let prop_dup_df := maskFilter rs (dupAny (propKey hs hp) rs)
      let groups := groupsBy (propKey hs hp) prop_dup_df
      let priceVariants := variantCount groups priceClean
      let agentVariants := variantCount groups agentClean
      let brokerVariants := variantCount groups brokerClean
      let result := dupSelect hs hp rs dupType
      let sorted := List.insertionSort (fun x y => addrLe x y = true) result
      let percent :=
        if 0 < totalRows then round2 (((sorted.length : ℚ) / (totalRows : ℚ)) * 100) else 0
      { totalRows := totalRows,
        returned := some sorted.length,
        typ := some dupType,
        summary := some
          { trueDupCount := trueDupCount, trueDupGroups := trueDupGroups,
            priceDiffers := priceVariants, agentDiffers := agentVariants,
            brokerDiffers := brokerVariants, percentDuplicates := percent },
        duplicates := sorted }

/-! ## `api_stats` (lines 280–344) -/

/-- `get_counts(column)` (lines 316–326) as the mapping the resulting dict
denotes: occurrences of each non-empty value. -/
def getCounts (vals : List String) : String → Nat :=
  fun v => if v = "" then 0 else vals.countP (fun w => decide (w = v))

/-- The successful payload of `api_stats`. -/
structure StatsResp where
  count : Nat
  stats : List (String × (String → Nat))

/-- Column selected by `get_counts` for a grouping name, honouring the
schema flags (a missing column yields the empty dict, and `province` falls
back to a present `state` column, lines 313–314). -/
def statsColumn (hs hp : Bool) (rs : List Rec) (col : String) : String → Nat :=
  if col = "city" then getCounts (rs.map (fun r => r.city.getD ""))
  else if col = "province" then
    (if hp then getCounts (rs.map (fun r => r.province.getD ""))
     else if hs then getCounts (rs.map (fun r => r.state.getD ""))
     else fun _ => 0)
  else if col = "fsa" then
    getCounts (rs.map (fun r => (clean_postal (r.postal.getD "")).take 3))
  else if col = "agent" then getCounts (rs.map (fun r => r.agent.getD ""))
  else if col = "broker" then getCounts (rs.map (fun r => r.broker.getD ""))
  else fun _ => 0

/-- `api_stats` (lines 280–344) on the already-filtered row set: the
`by`-dispatch, including the `400 Unknown grouping` client error.  Note the
empty-frame check precedes the dispatch. -/
def api_stats (hs hp : Bool) (rs : List Rec) (byArg : Option String) :
    Except String StatsResp :=
  let b := pyLower (byArg.getD "all")
  match rs with
  | [] => .ok { count := 0, stats := [] }
  | _ :: _ =>
      if b = "all" then
        .ok { count := rs.length, stats :=
          [("by_city", statsColumn hs hp rs "city"),
           ("by_province", statsColumn hs hp rs "province"),
           ("by_fsa", statsColumn hs hp rs "fsa"),
           ("by_agent", statsColumn hs hp rs "agent"),
           ("by_broker", statsColumn hs hp rs "broker")] }
      else if b ∈ ["city", "province", "fsa", "agent", "broker"] then
        .ok { count := rs.length, stats := [("by_" ++ b, statsColumn hs hp rs b)] }
      else .error ("Unknown grouping: " ++ b)

/-- Concatenation of a list of strings. -/
def strConcat : List String → String
  | [] => ""
  | s :: rest => s ++ strConcat rest

/-- Number of `?` placeholders in a piece of SQL text. -/
def qCount (s : String) : Nat := s.data.countP (fun c => decide (c = '?'))

/-- The fixed clause fragments out of which `add_filters` builds its appended
SQL text.  Each is a closed string (given the startup schema flags); no
caller-supplied value occurs in any of them. -/
def fragList (hp hs : Bool) : List String :=
  [clauseGen hp hs,
   clauseKeep hp hs,
   " AND address LIKE ? COLLATE NOCASE",
   " AND REPLACE(address, \x27 \x27, \x27\x27) LIKE ? COLLATE NOCASE",
   " AND CAST(latitude AS TEXT) LIKE ?",
   " AND CAST(longitude AS TEXT) LIKE ?",
   " AND REPLACE(postal,\x27 \x27,\x27\x27) LIKE ?",
   " AND city LIKE ?",
   " AND agent LIKE ?",
   " AND broker LIKE ?",
   " AND UPPER(" ++ regionSql hp hs ++ ") LIKE UPPER(?)"]

/-- `b` extends `a` by whole clause fragments from `fragList` on the SQL side
and by a matching number of bound parameters on the parameter side. -/
def StepOK (hp hs : Bool) (a b : String × List String) : Prop :=
  ∃ frags extra, b.1 = a.1 ++ strConcat frags ∧ b.2 = a.2 ++ extra ∧
    (∀ f ∈ frags, f ∈ fragList hp hs) ∧ qCount (strConcat frags) = extra.length

/-- Records used by the duplicate-classifier counterexamples: `vA` and `vB`
share the property key but differ in price (two full-identity keys). -/
def vA : Rec :=
  { address := some "9 King St", city := some "Toronto", province := some "ON",
    postal := some "M1M 1M1", price := some "$1", agent := some "a", broker := some "b",
    latitude := some "1", longitude := some "2" }

def vB : Rec := { vA with price := some "$2" }

/-! ## Structure of the text appended by `add_filters`

`add_filters` only ever appends one of finitely many fixed clause strings to
the SQL text (values travel exclusively through the parameter list), and each
appended clause carries exactly as many `?` placeholders as parameters.
-/

theorem str_data_append (a b : String) : (a ++ b).data = a.data ++ b.data := rfl

theorem str_append_empty (s : String) : s ++ "" = s := by
  cases s with
  | mk l => show String.mk (l ++ []) = String.mk l; rw [List.append_nil]

theorem str_empty_append (s : String) : "" ++ s = s := by
  cases s with
  | mk l => show String.mk ([] ++ l) = String.mk l; rw [List.nil_append]

theorem str_append_assoc (a b c : String) : (a ++ b) ++ c = a ++ (b ++ c) := by
  cases a with
  | mk x =>
      cases b with
      | mk y =>
          cases c with
          | mk z =>
              show String.mk ((x ++ y) ++ z) = String.mk (x ++ (y ++ z))
              rw [List.append_assoc]

theorem strConcat_append (l1 l2 : List String) :
    strConcat (l1 ++ l2) = strConcat l1 ++ strConcat l2 := by
  induction l1 with
  | nil => simp [strConcat, str_empty_append]
  | cons s rest ih => simp [strConcat, ih, str_append_assoc]

theorem qCount_append (a b : String) : qCount (a ++ b) = qCount a + qCount b := by
  simp [qCount, str_data_append, List.countP_append]

theorem stepOK_refl (hp hs : Bool) (a : String × List String) : StepOK hp hs a a := by
  refine ⟨[], [], ?_, ?_, ?_, ?_⟩ <;> simp [strConcat, str_append_empty, qCount]

theorem stepOK_trans {hp hs : Bool} {a b c : String × List String}
    (h1 : StepOK hp hs a b) (h2 : StepOK hp hs b c) : StepOK hp hs a c := by
  obtain ⟨f1, e1, hs1, hp1, hf1, hq1⟩ := h1
  obtain ⟨f2, e2, hs2, hp2, hf2, hq2⟩ := h2
  refine ⟨f1 ++ f2, e1 ++ e2, ?_, ?_, ?_, ?_⟩
  · rw [hs2, hs1, strConcat_append, str_append_assoc]
  · rw [hp2, hp1, List.append_assoc]
  · intro f hf
    rcases List.mem_append.mp hf with h | h
    · exact hf1 f h
    · exact hf2 f h
  · rw [strConcat_append, qCount_append, List.length_append, hq1, hq2]

theorem stepOK_single {hp hs : Bool} (a : String × List String) (f : String)
    (ps : List String) (hf : f ∈ fragList hp hs) (hq : qCount f = ps.length) :
    StepOK hp hs a (a.1 ++ f, a.2 ++ ps) := by
  refine ⟨[f], ps, ?_, rfl, ?_, ?_⟩
  · simp [strConcat, str_append_empty]
  · intro g hg
    simp at hg
    subst hg
    exact hf
  · simpa [strConcat, str_append_empty] using hq

theorem qCount_clauseGen (hp hs : Bool) : qCount (clauseGen hp hs) = 8 := by
  cases hp <;> cases hs <;> decide

theorem qCount_clauseKeep (hp hs : Bool) : qCount (clauseKeep hp hs) = 8 := by
  cases hp <;> cases hs <;> decide

theorem stepOK_phrase (hp hs : Bool) (sp : String × List String) (x : String) :
    StepOK hp hs sp (add_filters_phrase hp hs sp x) := by
  unfold add_filters_phrase
  by_cases hx : x = ""
  · simp only [hx, if_pos rfl]
    exact stepOK_refl hp hs sp
  · simp only [if_neg hx]
    exact stepOK_single sp _ _ (by simp [fragList]) (by rw [qCount_clauseGen]; rfl)

theorem stepOK_token (hp hs : Bool) (sp : String × List String) (t : String) :
    StepOK hp hs sp (add_filters_token hp hs sp t) := by
  unfold add_filters_token
  by_cases h1 : (fsaMatch (clean_postal t) || fullPostalMatch (clean_postal t)) = true
  · simp only [h1, if_pos rfl]
    exact stepOK_single sp _ _ (by simp [fragList]) (by rw [qCount_clauseKeep]; rfl)
  · simp only [h1]
    by_cases h2 : (zip5Match t || zip9Match t) = true
    · simp only [h2, if_false, if_pos rfl]
      exact stepOK_single sp _ _ (by simp [fragList]) (by rw [qCount_clauseKeep]; rfl)
    · simp only [h2, if_false]
      exact stepOK_single sp _ _ (by simp [fragList]) (by rw [qCount_clauseGen]; rfl)

theorem stepOK_foldl {hp hs : Bool} {step : String × List String → String → String × List String}
    (hstep : ∀ sp x, StepOK hp hs sp (step sp x)) :
    ∀ (l : List String) (sp : String × List String), StepOK hp hs sp (l.foldl step sp) := by
  intro l
  induction l with
  | nil => intro sp; exact stepOK_refl hp hs sp
  | cons x rest ih =>
      intro sp
      exact stepOK_trans (hstep sp x) (ih (step sp x))

theorem stepOK_q (hp hs : Bool) (sp : String × List String) (a : Args) :
    StepOK hp hs sp (add_filters_q hp hs sp a) := by
  unfold add_filters_q
  cases getTruthy a.q with
  | none => exact stepOK_refl hp hs sp
  | some q =>
      simp only []
      by_cases hfree : pyStrip (String.mk (removeQuoted (pyStrip q).data)) ≠ ""
      · simp only [if_pos hfree]
        exact stepOK_trans
          (stepOK_foldl (stepOK_phrase hp hs) _ sp)
          (stepOK_foldl (stepOK_token hp hs) _ _)
      · simp only [if_neg hfree]
        exact stepOK_foldl (stepOK_phrase hp hs) _ sp

theorem stepOK_address (hp hs : Bool) (sp : String × List String) (a : Args) :
    StepOK hp hs sp (add_filters_address sp a) := by
  unfold add_filters_address
  cases getTruthy a.address with
  | none => exact stepOK_refl hp hs sp
  | some v =>
      simp only []
      by_cases hd : pyIsDigitStr v = true
      · simp only [if_pos hd]
        exact stepOK_single sp _ _ (by simp [fragList]) (by rfl)
      · simp only [if_neg hd]
        exact stepOK_single sp _ _ (by simp [fragList]) (by rfl)

theorem stepOK_lat (hp hs : Bool) (sp : String × List String) (a : Args) :
    StepOK hp hs sp (add_filters_lat sp a) := by
  unfold add_filters_lat
  cases getTruthy a.latitude with
  | none => exact stepOK_refl hp hs sp
  | some v => exact stepOK_single sp _ _ (by simp [fragList]) (by rfl)

theorem stepOK_lon (hp hs : Bool) (sp : String × List String) (a : Args) :
    StepOK hp hs sp (add_filters_lon sp a) := by
  unfold add_filters_lon
  cases getTruthy a.longitude with
  | none => exact stepOK_refl hp hs sp
  | some v => exact stepOK_single sp _ _ (by simp [fragList]) (by rfl)

theorem stepOK_postcode (hp hs : Bool) (sp : String × List String) (a : Args) :
    StepOK hp hs sp (add_filters_postcode sp a) := by
  unfold add_filters_postcode
  cases getTruthy a.postcode with
  | none => exact stepOK_refl hp hs sp
  | some v => exact stepOK_single sp _ _ (by simp [fragList]) (by rfl)

theorem stepOK_city (hp hs : Bool) (sp : String × List String) (a : Args) :
    StepOK hp hs sp (add_filters_city sp a) := by
  unfold add_filters_city
  cases getTruthy a.city with
  | none => exact stepOK_refl hp hs sp
  | some v => exact stepOK_single sp _ _ (by simp [fragList]) (by rfl)

theorem stepOK_agent (hp hs : Bool) (sp : String × List String) (a : Args) :
    StepOK hp hs sp (add_filters_agent sp a) := by
  unfold add_filters_agent
  cases getTruthy a.agent with
  | none => exact stepOK_refl hp hs sp
  | some v => exact stepOK_single sp _ _ (by simp [fragList]) (by rfl)

theorem stepOK_broker (hp hs : Bool) (sp : String × List String) (a : Args) :
    StepOK hp hs sp (add_filters_broker sp a) := by
  unfold add_filters_broker
  cases getTruthy a.broker with
  | none => exact stepOK_refl hp hs sp
  | some v => exact stepOK_single sp _ _ (by simp [fragList]) (by rfl)

theorem qCount_region (hp hs : Bool) :
    qCount (" AND UPPER(" ++ regionSql hp hs ++ ") LIKE UPPER(?)") = 1 := by
  cases hp <;> cases hs <;> decide

theorem stepOK_region (hp hs : Bool) (sp : String × List String) (a : Args) :
    StepOK hp hs sp (add_filters_region hp hs sp a) := by
  unfold add_filters_region
  cases (match getTruthy a.province with
         | some v => some v
         | none => getTruthy a.state) with
  | none => exact stepOK_refl hp hs sp
  | some v =>
      simp only []
      have h : sp.1 ++ " AND UPPER(" ++ regionSql hp hs ++ ") LIKE UPPER(?)" =
          sp.1 ++ (" AND UPPER(" ++ regionSql hp hs ++ ") LIKE UPPER(?)") := by
        rw [← str_append_assoc, ← str_append_assoc]
      rw [h]
      apply stepOK_single sp _ _ (by simp [fragList])
      rw [qCount_region]
      rfl

/-- `add_filters` only appends: the invariant holds end to end. -/
theorem add_filters_stepOK (hp hs : Bool) (sql : String) (params : List String) (a : Args) :
    StepOK hp hs (sql, params) (add_filters hp hs sql params a) := by
  unfold add_filters
  exact stepOK_trans (stepOK_q hp hs _ a)
    (stepOK_trans (stepOK_address hp hs _ a)
      (stepOK_trans (stepOK_lat hp hs _ a)
        (stepOK_trans (stepOK_lon hp hs _ a)
          (stepOK_trans (stepOK_postcode hp hs _ a)
            (stepOK_trans (stepOK_city hp hs _ a)
              (stepOK_trans (stepOK_agent hp hs _ a)
                (stepOK_trans (stepOK_broker hp hs _ a)
                  (stepOK_region hp hs _ a))))))))

/-! ## Claims C1 and C10: `add_filters` appends safely -/

/-- C1.  For every set of request arguments, the SQL text produced by
`add_filters` is the input text followed by clause fragments drawn from the
fixed list `fragList` — closed strings in which only field names (including
the startup-computed `REGION_SQL`) occur — while every caller-supplied
comparison value is appended to the bound-parameter list, never interpolated
into the predicate text. -/
theorem add_filters_values_only_bound (hp hs : Bool) (sql : String)
    (params : List String) (a : Args) :
    ∃ frags extra,
      (add_filters hp hs sql params a).1 = sql ++ strConcat frags ∧
      (add_filters hp hs sql params a).2 = params ++ extra ∧
      ∀ f ∈ frags, f ∈ fragList hp hs := by
  obtain ⟨frags, extra, h1, h2, h3, _⟩ := add_filters_stepOK hp hs sql params a
  exact ⟨frags, extra, h1, h2, h3⟩

/-- C10.  `add_filters` only appends: the output SQL begins with the input
SQL, the output parameter list extends the input list, and the number of `?`
placeholders appended equals the number of parameters appended. -/
theorem add_filters_appends_balanced (hp hs : Bool) (sql : String)
    (params : List String) (a : Args) :
    ∃ suffix extra,
      (add_filters hp hs sql params a).1 = sql ++ suffix ∧
      (add_filters hp hs sql params a).2 = params ++ extra ∧
      qCount suffix = extra.length := by
  obtain ⟨frags, extra, h1, h2, _, h4⟩ := add_filters_stepOK hp hs sql params a
  exact ⟨strConcat frags, extra, h1, h2, h4⟩

/-! ## Claim C2: the classification patterns and their overlap -/

theorem fsaL_length {l : List Char} (h : fsaL l = true) : l.length = 3 := by
  rcases l with _ | ⟨a, _ | ⟨b, _ | ⟨c, _ | ⟨d, rest⟩⟩⟩⟩ <;> simp [fsaL] at h ⊢

theorem fsaL_head {l : List Char} (h : fsaL l = true) :
    ∃ a rest, l = a :: rest ∧ isUpperAZ a = true := by
  rcases l with _ | ⟨a, _ | ⟨b, _ | ⟨c, _ | ⟨d, rest⟩⟩⟩⟩ <;> simp [fsaL] at h
  exact ⟨a, [b, c], rfl, by tauto⟩

theorem fullPostalL_length {l : List Char} (h : fullPostalL l = true) : l.length = 6 := by
  rcases l with _ | ⟨a, _ | ⟨b, _ | ⟨c, _ | ⟨d, _ | ⟨e, _ | ⟨f, _ | ⟨g, rest⟩⟩⟩⟩⟩⟩⟩ <;>
    simp [fullPostalL] at h ⊢

theorem fullPostalL_head {l : List Char} (h : fullPostalL l = true) :
    ∃ a rest, l = a :: rest ∧ isUpperAZ a = true := by
  rcases l with _ | ⟨a, _ | ⟨b, _ | ⟨c, _ | ⟨d, _ | ⟨e, _ | ⟨f, _ | ⟨g, rest⟩⟩⟩⟩⟩⟩⟩ <;>
    simp [fullPostalL] at h
  exact ⟨a, [b, c, d, e, f], rfl, by tauto⟩

theorem zip5L_spec {l : List Char} (h : zip5L l = true) :
    l.length = 5 ∧ ∀ c ∈ l, isDigitC c = true := by
  rcases l with _ | ⟨a, _ | ⟨b, _ | ⟨c, _ | ⟨d, _ | ⟨e, _ | ⟨f, rest⟩⟩⟩⟩⟩⟩ <;>
    simp only [zip5L, Bool.and_eq_true] at h
  all_goals try (exact absurd h (by decide))
  refine ⟨rfl, ?_⟩
  intro x hx
  simp only [List.mem_cons, List.not_mem_nil, or_false] at hx
  rcases hx with rfl | rfl | rfl | rfl | rfl <;> tauto

theorem zip9L_spec {l : List Char} (h : zip9L l = true) :
    ∃ a b c d e f g i j, l = [a, b, c, d, e, '-', f, g, i, j] ∧
      isDigitC a = true ∧ isDigitC b = true ∧ isDigitC c = true ∧ isDigitC d = true ∧
      isDigitC e = true ∧ isDigitC f = true ∧ isDigitC g = true ∧ isDigitC i = true ∧
      isDigitC j = true := by
  rcases l with _ | ⟨a, _ | ⟨b, _ | ⟨c, _ | ⟨d, _ | ⟨e, _ | ⟨hh, _ | ⟨f, _ | ⟨g, _ |
    ⟨i, _ | ⟨j, _ | ⟨k, rest⟩⟩⟩⟩⟩⟩⟩⟩⟩⟩⟩ <;>
    simp only [zip9L, Bool.and_eq_true, decide_eq_true_eq] at h
  all_goals try (exact absurd h (by decide))
  have hdash : hh = '-' := by tauto
  subst hdash
  refine ⟨a, b, c, d, e, f, g, i, j, rfl, ?_, ?_, ?_, ?_, ?_, ?_, ?_, ?_, ?_⟩ <;> tauto

theorem zip9L_chars {l : List Char} (h : zip9L l = true) :
    ∀ c ∈ l, (isDigitC c || decide (c = '-')) = true := by
  obtain ⟨a, b, c, d, e, f, g, i, j, rfl, h1, h2, h3, h4, h5, h6, h7, h8, h9⟩ := zip9L_spec h
  intro x hx
  simp only [List.mem_cons, List.not_mem_nil, or_false] at hx
  rcases hx with rfl | rfl | rfl | rfl | rfl | rfl | rfl | rfl | rfl | rfl <;>
    simp [h1, h2, h3, h4, h5, h6, h7, h8, h9]

theorem takeWhile_all {p : Char → Bool} :
    ∀ {l : List Char}, (∀ c ∈ l, p c = true) → l.takeWhile p = l ∧ l.dropWhile p = [] := by
  intro l
  induction l with
  | nil => intro _; simp
  | cons c cs ih =>
      intro h
      have hc : p c = true := h c (by simp)
      have := ih (fun x hx => h x (by simp [hx]))
      simp [List.takeWhile_cons, List.dropWhile_cons, hc, this.1, this.2]

theorem numCore_chars {cs : List Char} (h : numCore cs = true) :
    ∀ c ∈ cs, (isDigitC c || decide (c = '.')) = true := by
  simp only [numCore, Bool.and_eq_true, Bool.or_eq_true] at h
  intro c hc
  have hsplit := (List.takeWhile_append_dropWhile (p := isDigitC) (l := cs))
  rw [← hsplit] at hc
  rcases List.mem_append.mp hc with hmem | hmem
  · have := List.mem_takeWhile_imp hmem
    simp [this]
  · rcases h.2 with hemp | hmatch
    · rw [List.isEmpty_iff] at hemp
      rw [hemp] at hmem
      simp at hmem
    · rcases hrest : cs.dropWhile isDigitC with _ | ⟨r, fs⟩
      · rw [hrest] at hmem; simp at hmem
      · rw [hrest] at hmem hmatch
        simp only [Bool.and_eq_true, decide_eq_true_eq] at hmatch
        obtain ⟨⟨hr, _⟩, hall⟩ := hmatch
        rcases List.mem_cons.mp hmem with rfl | hcfs
        · simp [hr]
        · have := List.all_eq_true.mp hall c hcfs
          simp [this]

theorem numCore_all_digits {cs : List Char} (hne : cs ≠ [])
    (h : ∀ c ∈ cs, isDigitC c = true) : numCore cs = true := by
  obtain ⟨ht, hd⟩ := takeWhile_all h
  simp only [numCore, ht, hd]
  simp [hne]

theorem numberishL_chars {l : List Char} (h : numberishL l = true) :
    ∀ c ∈ l, (isDigitC c || decide (c = '-') || decide (c = '.')) = true := by
  rcases l with _ | ⟨c0, cs⟩
  · simp [numberishL] at h
  · by_cases hc : c0 = '-'
    · subst hc
      simp only [numberishL, if_pos rfl] at h
      intro c hcm
      rcases List.mem_cons.mp hcm with rfl | hin
      · simp
      · have := numCore_chars h c hin
        simp only [Bool.or_eq_true] at this ⊢
        tauto
    · simp only [numberishL, if_neg hc] at h
      intro c hcm
      have := numCore_chars h c hcm
      simp only [Bool.or_eq_true] at this ⊢
      tauto

theorem numChar_ok {c : Char}
    (h : (isDigitC c || decide (c = '-') || decide (c = '.')) = true) :
    isLowerAZ c = false ∧ c ≠ ' ' := by
  simp only [Bool.or_eq_true, decide_eq_true_eq] at h
  rcases h with (hd | rfl) | rfl
  · constructor
    · simp only [isDigitC, decide_eq_true_eq] at hd
      simp only [isLowerAZ, decide_eq_false_iff_not]
      omega
    · intro heq
      exact absurd (heq ▸ hd) (by decide)
  · exact ⟨by decide, by decide⟩
  · exact ⟨by decide, by decide⟩

theorem numChar_not_upper {c : Char}
    (h : (isDigitC c || decide (c = '-') || decide (c = '.')) = true) :
    isUpperAZ c = false := by
  simp only [Bool.or_eq_true, decide_eq_true_eq] at h
  rcases h with (hd | rfl) | rfl
  · simp only [isDigitC, decide_eq_true_eq] at hd
    simp only [isUpperAZ, decide_eq_false_iff_not]
    omega
  · decide
  · decide

theorem strMk_data (s : String) : String.mk s.data = s := rfl

theorem clean_postal_fixed {s : String}
    (h : ∀ c ∈ s.data, isLowerAZ c = false ∧ c ≠ ' ') : clean_postal s = s := by
  unfold clean_postal removeSpaces pyUpper
  have hmap : s.data.map pyUpperC = s.data := by
    have : s.data.map pyUpperC = s.data.map id :=
      List.map_congr_left (fun c hc => by simp [pyUpperC, (h c hc).1])
    rw [this, List.map_id]
  rw [strMk_data, hmap]
  have hfil : s.data.filter (fun c => decide (c ≠ ' ')) = s.data :=
    List.filter_eq_self.mpr (fun c hc => by simp [(h c hc).2])
  rw [hfil]

theorem disj_fsa_full (s : String) : (fsaMatch s && fullPostalMatch s) = false := by
  cases hf : fsaMatch s
  · simp
  · cases hp : fullPostalMatch s
    · simp
    · have h1 := fsaL_length hf
      have h2 := fullPostalL_length hp
      omega

theorem disj_fsa_zip5 (t : String) : (fsaMatch (clean_postal t) && zip5Match t) = false := by
  cases hz : zip5Match t
  · simp
  · obtain ⟨hlen, hdig⟩ := zip5L_spec hz
    have hfix : clean_postal t = t :=
      clean_postal_fixed (fun c hc => numChar_ok (by simp [hdig c hc]))
    cases hf : fsaMatch (clean_postal t)
    · simp
    · exfalso
      rw [hfix] at hf
      have := fsaL_length hf
      omega

theorem disj_fsa_zip9 (t : String) : (fsaMatch (clean_postal t) && zip9Match t) = false := by
  cases hz : zip9Match t
  · simp
  · have hch := zip9L_chars hz
    have hfix : clean_postal t = t :=
      clean_postal_fixed (fun c hc => numChar_ok (by
        have := hch c hc
        simp only [Bool.or_eq_true] at this ⊢
        tauto))
    cases hf : fsaMatch (clean_postal t)
    · simp
    · exfalso
      rw [hfix] at hf
      have h1 := fsaL_length hf
      obtain ⟨a, b, c, d, e, f, g, i, j, hl, _⟩ := zip9L_spec hz
      rw [hl] at h1
      simp at h1

theorem disj_fsa_num (t : String) : (fsaMatch (clean_postal t) && numberish t) = false := by
  cases hn : numberish t
  · simp
  · have hch := numberishL_chars hn
    have hfix : clean_postal t = t := clean_postal_fixed (fun c hc => numChar_ok (hch c hc))
    cases hf : fsaMatch (clean_postal t)
    · simp
    · exfalso
      rw [hfix] at hf
      obtain ⟨a, rest, hl, ha⟩ := fsaL_head hf
      have := numChar_not_upper (hch a (by rw [hl]; simp))
      rw [ha] at this
      exact absurd this (by decide)

theorem disj_full_zip5 (t : String) :
    (fullPostalMatch (clean_postal t) && zip5Match t) = false := by
  cases hz : zip5Match t
  · simp
  · obtain ⟨hlen, hdig⟩ := zip5L_spec hz
    have hfix : clean_postal t = t :=
      clean_postal_fixed (fun c hc => numChar_ok (by simp [hdig c hc]))
    cases hf : fullPostalMatch (clean_postal t)
    · simp
    · exfalso
      rw [hfix] at hf
      have := fullPostalL_length hf
      omega

theorem disj_full_zip9 (t : String) :
    (fullPostalMatch (clean_postal t) && zip9Match t) = false := by
  cases hz : zip9Match t
  · simp
  · have hch := zip9L_chars hz
    have hfix : clean_postal t = t :=
      clean_postal_fixed (fun c hc => numChar_ok (by
        have := hch c hc
        simp only [Bool.or_eq_true] at this ⊢
        tauto))
    cases hf : fullPostalMatch (clean_postal t)
    · simp
    · exfalso
      rw [hfix] at hf
      have h1 := fullPostalL_length hf
      obtain ⟨a, b, c, d, e, f, g, i, j, hl, _⟩ := zip9L_spec hz
      rw [hl] at h1
      simp at h1

theorem disj_full_num (t : String) :
    (fullPostalMatch (clean_postal t) && numberish t) = false := by
  cases hn : numberish t
  · simp
  · have hch := numberishL_chars hn
    have hfix : clean_postal t = t := clean_postal_fixed (fun c hc => numChar_ok (hch c hc))
    cases hf : fullPostalMatch (clean_postal t)
    · simp
    · exfalso
      rw [hfix] at hf
      obtain ⟨a, rest, hl, ha⟩ := fullPostalL_head hf
      have := numChar_not_upper (hch a (by rw [hl]; simp))
      rw [ha] at this
      exact absurd this (by decide)

theorem disj_zip5_zip9 (t : String) : (zip5Match t && zip9Match t) = false := by
  cases h5 : zip5Match t
  · simp
  · cases h9 : zip9Match t
    · simp
    · exfalso
      obtain ⟨hlen, _⟩ := zip5L_spec h5
      obtain ⟨a, b, c, d, e, f, g, i, j, hl, _⟩ := zip9L_spec h9
      rw [hl] at hlen
      simp at hlen

theorem digit_ne_dash {c : Char} (h : isDigitC c = true) : c ≠ '-' := by
  intro heq
  exact absurd (heq ▸ h) (by decide)

theorem disj_zip9_num (t : String) : (zip9Match t && numberish t) = false := by
  cases h9 : zip9Match t
  · simp
  · obtain ⟨a, b, c, d, e, f, g, i, j, hl, ha, hb, hc, hd, he, hf, hg, hi, hj⟩ := zip9L_spec h9
    have hn : numberish t = false := by
      show numberishL t.data = false
      rw [hl]
      simp only [numberishL, if_neg (digit_ne_dash ha)]
      simp [numCore, List.takeWhile_cons, List.dropWhile_cons, ha, hb, hc, hd, he,
        (by decide : isDigitC (Char.ofNat 45) = false),
        (by decide : decide (Char.ofNat 45 = Char.ofNat 46) = false),
        show ('-' : Char) = Char.ofNat 45 from by decide]
    simp [hn]

theorem zip5_sub_num (t : String) : (zip5Match t && numberish t) = zip5Match t := by
  cases h5 : zip5Match t
  · simp
  · obtain ⟨hlen, hdig⟩ := zip5L_spec h5
    have hn : numberish t = true := by
      show numberishL t.data = true
      rcases hdata : t.data with _ | ⟨c0, cs⟩
      · rw [hdata] at hlen; simp at hlen
      · have hc0 : isDigitC c0 = true := hdig c0 (by rw [hdata]; simp)
        simp only [numberishL, if_neg (digit_ne_dash hc0)]
        apply numCore_all_digits (by simp)
        intro x hx
        exact hdig x (by rw [hdata]; exact hx)
    simp [hn]

/-- C2 counterexample.  The claim asserts the non-generic classification
patterns are pairwise disjoint; but the token `12345` matches both the
`us_zip5` pattern (`\d{5}`) and the `numeric` pattern (`-?\d+(\.\d+)?`), so a
token can match two non-generic tags. -/
theorem token_patterns_overlap_on_zip5 :
    zip5Match "12345" = true ∧ numberish "12345" = true := by decide

/-- C2 (amended).  All pairs of non-generic classification patterns are
disjoint except `us_zip5`/`numeric`: every five-digit ZIP token also matches
the numeric pattern (and this is the only overlap), so the classifier's branch
order — postal patterns before the numeric flag — still assigns each token
exactly one tag. -/
theorem token_patterns_disjoint_except_zip5_numeric (t : String) :
    (fsaMatch (clean_postal t) && fullPostalMatch (clean_postal t)) = false ∧
    (fsaMatch (clean_postal t) && zip5Match t) = false ∧
    (fsaMatch (clean_postal t) && zip9Match t) = false ∧
    (fsaMatch (clean_postal t) && numberish t) = false ∧
    (fullPostalMatch (clean_postal t) && zip5Match t) = false ∧
    (fullPostalMatch (clean_postal t) && zip9Match t) = false ∧
    (fullPostalMatch (clean_postal t) && numberish t) = false ∧
    (zip5Match t && zip9Match t) = false ∧
    (zip9Match t && numberish t) = false ∧
    (zip5Match t && numberish t) = zip5Match t :=
  ⟨disj_fsa_full (clean_postal t), disj_fsa_zip5 t, disj_fsa_zip9 t, disj_fsa_num t,
   disj_full_zip5 t, disj_full_zip9 t, disj_full_num t, disj_zip5_zip9 t,
   disj_zip9_num t, zip5_sub_num t⟩

/-! ## Claim C3: the OR-group built for `fsa` / `full_postal` tokens -/

/-- A postal token is never numeric-looking: helper for C3. -/
theorem postal_token_not_numberish {t : String}
    (h : (fsaMatch (clean_postal t) || fullPostalMatch (clean_postal t)) = true) :
    numberish t = false := by
  cases hn : numberish t
  · rfl
  · exfalso
    rw [Bool.or_eq_true] at h
    rcases h with hf | hf
    · have hd := disj_fsa_num t
      rw [hf, hn] at hd
      simp at hd
    · have hd := disj_full_num t
      rw [hf, hn] at hd
      simp at hd

/-- C3 counterexample.  For the FSA token `A1A` the builder's
latitude/longitude parameter is the substring pattern `%A1A%`, not the prefix
pattern `A1A%` the claim asserts: the produced pattern matches the coordinate
text `1A1A`, of which the token is not a prefix. -/
theorem fsa_latlon_pattern_is_substring :
    (add_filters_token true false ("", []) "A1A").2.get? 5 = some "%A1A%" ∧
    likeStr "%A1A%" "1A1A" = true ∧ likeStr "A1A%" "1A1A" = false := by decide

/-- C3 (amended).  For every token classified `fsa` or `full_postal`, the
OR-group appends the case-insensitive substring pattern `%t%` for address,
city, region, agent and broker, the *substring* pattern `%t%` (not a prefix)
for the latitude/longitude text — such a token always contains a letter, so
the numeric-prefix rule degenerates to the substring case — and the prefix
pattern `clean_postal t + "%"` for the space-stripped postal column. -/
theorem fsa_token_group (hp hs : Bool) (sp : String × List String) (t : String)
    (h : (fsaMatch (clean_postal t) || fullPostalMatch (clean_postal t)) = true) :
    add_filters_token hp hs sp t =
      (sp.1 ++ clauseKeep hp hs,
       sp.2 ++ ["%" ++ t ++ "%", "%" ++ t ++ "%", "%" ++ t ++ "%", "%" ++ t ++ "%",
                "%" ++ t ++ "%", "%" ++ t ++ "%", "%" ++ t ++ "%",
                clean_postal t ++ "%"]) := by
  have hn := postal_token_not_numberish h
  simp only [add_filters_token, hn, h, Bool.false_eq_true, if_false, if_true]

/-- Witness for C3 (amended) at the concrete FSA token `A1A`. -/
theorem fsa_token_group_witness :
    (fsaMatch (clean_postal "A1A") || fullPostalMatch (clean_postal "A1A")) = true ∧
    add_filters_token true false ("S", []) "A1A" =
      ("S" ++ clauseKeep true false,
       ["%A1A%", "%A1A%", "%A1A%", "%A1A%", "%A1A%", "%A1A%", "%A1A%", "A1A%"]) :=
  ⟨by decide, fsa_token_group true false ("S", []) "A1A" (by decide)⟩

/-! ## Claims C4 and C5: mask characterisations -/

theorem dupFirstGo_length {α β : Type} [DecidableEq β] (k : α → β) :
    ∀ (seen : List β) (l : List α), (dupFirstGo k seen l).length = l.length := by
  intro seen l
  induction l generalizing seen with
  | nil => rfl
  | cons z zs ih => simp [dupFirstGo, ih]

theorem dupFirst_length {α β : Type} [DecidableEq β] (k : α → β) (l : List α) :
    (dupFirst k l).length = l.length := dupFirstGo_length k [] l

theorem dupFirstGo_get? {α β : Type} [DecidableEq β] (k : α → β) :
    ∀ (seen : List β) (l : List α) (i : Nat) (x : α), l.get? i = some x →
      (dupFirstGo k seen l).get? i =
        some (decide (k x ∈ seen ∨ ∃ y ∈ l.take i, k y = k x)) := by
  intro seen l
  induction l generalizing seen with
  | nil => intro i x h; simp at h
  | cons z zs ih =>
      intro i x h
      cases i with
      | zero =>
          have hx : z = x := by simpa using h
          subst hx
          show some (decide (k z ∈ seen)) = _
          congr 1
          rw [decide_eq_decide]
          simp
      | succ i =>
          have h' : zs.get? i = some x := h
          show (dupFirstGo k (k z :: seen) zs).get? i = _
          rw [ih (k z :: seen) i x h']
          congr 1
          rw [decide_eq_decide]
          constructor
          · rintro (hmem | ⟨y, hy, hk⟩)
            · rcases List.mem_cons.mp hmem with heq | hmem'
              · exact Or.inr ⟨z, by simp [List.take_succ_cons], heq.symm⟩
              · exact Or.inl hmem'
            · exact Or.inr ⟨y, by
                rw [List.take_succ_cons]
                exact List.mem_cons_of_mem _ hy, hk⟩
          · rintro (hmem | ⟨y, hy, hk⟩)
            · exact Or.inl (List.mem_cons_of_mem _ hmem)
            · rw [List.take_succ_cons] at hy
              rcases List.mem_cons.mp hy with rfl | hy'
              · exact Or.inl (by rw [← hk]; exact List.mem_cons_self _ _)
              · exact Or.inr ⟨y, hy', hk⟩

theorem dupFirst_get? {α β : Type} [DecidableEq β] (k : α → β) (l : List α) (i : Nat)
    (x : α) (h : l.get? i = some x) :
    (dupFirst k l).get? i = some (decide (∃ y ∈ l.take i, k y = k x)) := by
  rw [dupFirst, dupFirstGo_get? k [] l i x h]
  congr 1
  rw [decide_eq_decide]
  simp

theorem maskFilter_nil {α : Type} (m : List Bool) : maskFilter ([] : List α) m = [] := by
  cases m <;> rfl

theorem maskFilter_nil_mask {α : Type} (l : List α) : maskFilter l ([] : List Bool) = [] := by
  cases l <;> rfl

theorem mem_maskFilter {α : Type} :
    ∀ {l : List α} {m : List Bool} {x : α},
      x ∈ maskFilter l m ↔ ∃ i, l.get? i = some x ∧ m.get? i = some true := by
  intro l
  induction l with
  | nil =>
      intro m x
      rw [maskFilter_nil]
      simp
  | cons a l' ih =>
      intro m x
      cases m with
      | nil =>
          constructor
          · intro h
            simp [maskFilter] at h
          · rintro ⟨i, _, hm⟩
            simp at hm
      | cons b bs =>
          cases b with
          | true =>
              simp only [maskFilter, if_pos rfl]
              constructor
              · intro h
                rcases List.mem_cons.mp h with rfl | h'
                · exact ⟨0, rfl, rfl⟩
                · obtain ⟨i, h1, h2⟩ := ih.mp h'
                  exact ⟨i + 1, h1, h2⟩
              · rintro ⟨i, h1, h2⟩
                cases i with
                | zero =>
                    have : a = x := by simpa using h1
                    subst this
                    exact List.mem_cons_self _ _
                | succ i => exact List.mem_cons_of_mem _ (ih.mpr ⟨i, h1, h2⟩)
          | false =>
              show x ∈ maskFilter l' bs ↔ _
              rw [ih]
              constructor
              · rintro ⟨i, h1, h2⟩
                exact ⟨i + 1, h1, h2⟩
              · rintro ⟨i, h1, h2⟩
                cases i with
                | zero => simp at h2
                | succ i => exact ⟨i, h1, h2⟩

theorem maskFilter_length_mono {α : Type} :
    ∀ (l : List α) (m1 m2 : List Bool),
      (∀ i, m1.get? i = some true → m2.get? i = some true) →
      (maskFilter l m1).length ≤ (maskFilter l m2).length := by
  intro l
  induction l with
  | nil => intro m1 m2 _; rw [maskFilter_nil, maskFilter_nil]
  | cons a l' ih =>
      intro m1 m2 h
      cases m1 with
      | nil => simp [maskFilter]
      | cons b1 bs1 =>
          cases m2 with
          | nil =>
              cases b1 with
              | true => exact absurd (h 0 rfl) (by simp)
              | false =>
                  show (maskFilter l' bs1).length ≤ (maskFilter (a :: l') ([] : List Bool)).length
                  rw [maskFilter_nil_mask]
                  have htail : ∀ i, bs1.get? i = some true → ([] : List Bool).get? i = some true :=
                    fun i hi => h (i + 1) hi
                  have := ih bs1 [] htail
                  rw [maskFilter_nil_mask] at this
                  simpa using this
          | cons b2 bs2 =>
              have htail : ∀ i, bs1.get? i = some true → bs2.get? i = some true :=
                fun i hi => h (i + 1) hi
              cases b1 with
              | true =>
                  have hb2 : b2 = true := by
                    have := h 0 rfl
                    simpa using this
                  subst hb2
                  simp only [maskFilter, if_pos rfl, List.length_cons]
                  exact Nat.succ_le_succ (ih bs1 bs2 htail)
              | false =>
                  show (maskFilter l' bs1).length ≤ (maskFilter (a :: l') (b2 :: bs2)).length
                  cases b2 with
                  | true =>
                      show (maskFilter l' bs1).length ≤ (a :: maskFilter l' bs2).length
                      exact Nat.le_succ_of_le (ih bs1 bs2 htail)
                  | false =>
                      show (maskFilter l' bs1).length ≤ (maskFilter l' bs2).length
                      exact ih bs1 bs2 htail

theorem zipWith_get?_some {f : Bool → Bool → Bool} :
    ∀ (l1 l2 : List Bool) (i : Nat) (a b : Bool),
      l1.get? i = some a → l2.get? i = some b →
      (List.zipWith f l1 l2).get? i = some (f a b) := by
  intro l1
  induction l1 with
  | nil => intro l2 i a b h1 _; simp at h1
  | cons x xs ih =>
      intro l2 i a b h1 h2
      cases l2 with
      | nil => simp at h2
      | cons y ys =>
          cases i with
          | zero =>
              have hxa : x = a := by simpa using h1
              have hyb : y = b := by simpa using h2
              subst hxa; subst hyb
              rfl
          | succ i => exact ih ys i a b h1 h2

theorem get?_lt_length {α : Type} {l : List α} {i : Nat} {x : α}
    (h : l.get? i = some x) : i < l.length := by
  by_contra hc
  push_neg at hc
  rw [List.get?_eq_none.mpr hc] at h
  exact Option.noConfusion h

theorem get?_some_of_lt {α : Type} {l : List α} {i : Nat} (h : i < l.length) :
    ∃ a, l.get? i = some a := by
  cases hg : l.get? i with
  | none => rw [List.get?_eq_none] at hg; omega
  | some a => exact ⟨a, rfl⟩

/-- The result rows selected by `api_duplicates` on a non-empty frame
(lines 501–509 followed by the sort on line 515), by definition. -/
theorem api_duplicates_result (hs hp : Bool) (z : Rec) (zs : List Rec) (ta : Option String) :
    (api_duplicates hs hp (z :: zs) ta).duplicates =
      List.insertionSort (fun x y => addrLe x y = true)
        (if pyLower (ta.getD "all") = "true" then
           maskFilter (z :: zs) (dupFirst (fullKey hs hp) (z :: zs))
         else if pyLower (ta.getD "all") = "variants" then
           maskFilter (z :: zs)
             (List.zipWith (fun a b => a && !b)
               (dupFirst (propKey hs hp) (z :: zs)) (dupFirst (fullKey hs hp) (z :: zs)))
         else maskFilter (z :: zs) (dupFirst (propKey hs hp) (z :: zs))) := rfl

/-- C4 counterexample.  In `[vA, vB, vA]` all three records form one property
group with two distinct full-identity keys, so the claim (`variants` returns
every member beyond the first of such a group) demands both `vB` and the
trailing copy of `vA`; the code returns only `[vB]` — the trailing `vA`,
being a repeat of an already-seen full key, is excluded. -/
theorem variants_counterexample :
    propKey false true vA = propKey false true vB ∧
    fullKey false true vA ≠ fullKey false true vB ∧
    (api_duplicates false true [vA, vB, vA] (some "variants")).duplicates = [vB] ∧
    vA ∉ (api_duplicates false true [vA, vB, vA] (some "variants")).duplicates := by
  decide

/-- C4 (amended).  Mode `variants` returns exactly the records preceded in
the input by an earlier record with the same property-identity key but by no
earlier record with the same full-identity key — i.e. the first occurrence of
each *additional* full-identity key in a property group, not every non-first
member of the group. -/
theorem variants_mode_membership (hs hp : Bool) (rs : List Rec) (r : Rec) :
    r ∈ (api_duplicates hs hp rs (some "variants")).duplicates ↔
      ∃ i, rs.get? i = some r ∧
        (∃ y ∈ rs.take i, propKey hs hp y = propKey hs hp r) ∧
        ¬∃ y ∈ rs.take i, fullKey hs hp y = fullKey hs hp r := by
  cases rs with
  | nil =>
      have h0 : (api_duplicates hs hp [] (some "variants")).duplicates = [] := rfl
      rw [h0]
      simp
  | cons z zs =>
      rw [api_duplicates_result]
      have hty : pyLower ((some "variants").getD "all") = "variants" := by decide
      rw [hty]
      rw [if_neg (by decide : ¬("variants" : String) = "true"), if_pos rfl]
      rw [List.mem_insertionSort, mem_maskFilter]
      constructor
      · rintro ⟨i, hget, hmask⟩
        refine ⟨i, hget, ?_⟩
        have h1 := dupFirst_get? (propKey hs hp) (z :: zs) i r hget
        have h2 := dupFirst_get? (fullKey hs hp) (z :: zs) i r hget
        rw [zipWith_get?_some _ _ i _ _ h1 h2] at hmask
        have hb := Option.some.inj hmask
        simp only [Bool.and_eq_true, Bool.not_eq_true', decide_eq_true_eq,
          decide_eq_false_iff_not] at hb
        exact hb
      · rintro ⟨i, hget, hpk, hfk⟩
        refine ⟨i, hget, ?_⟩
        have h1 := dupFirst_get? (propKey hs hp) (z :: zs) i r hget
        have h2 := dupFirst_get? (fullKey hs hp) (z :: zs) i r hget
        rw [zipWith_get?_some _ _ i _ _ h1 h2]
        simp [hpk, hfk]

/-- C5.  Mode `true` selects a subset of what mode `all` selects: the result
size in mode `all` is at least the size in mode `true`, and every record
returned by mode `true` is also returned by mode `all`. -/
theorem true_subset_all (hs hp : Bool) (rs : List Rec) :
    (api_duplicates hs hp rs (some "true")).duplicates.length ≤
      (api_duplicates hs hp rs (some "all")).duplicates.length ∧
    ∀ r ∈ (api_duplicates hs hp rs (some "true")).duplicates,
      r ∈ (api_duplicates hs hp rs (some "all")).duplicates := by
  cases rs with
  | nil => exact ⟨Nat.le_refl 0, fun r h => h⟩
  | cons z zs =>
      rw [api_duplicates_result, api_duplicates_result]
      rw [show pyLower ((some "true").getD "all") = "true" from by decide,
          show pyLower ((some "all").getD "all") = "all" from by decide]
      rw [if_pos rfl]
      rw [if_neg (by decide : ¬("all" : String) = "true"),
          if_neg (by decide : ¬("all" : String) = "variants")]
      have hpoint : ∀ i, (dupFirst (fullKey hs hp) (z :: zs)).get? i = some true →
          (dupFirst (propKey hs hp) (z :: zs)).get? i = some true := by
        intro i hi
        have hilen : i < (z :: zs).length := by
          have := get?_lt_length hi
          rwa [dupFirst_length] at this
        obtain ⟨x, hx⟩ := get?_some_of_lt hilen
        rw [dupFirst_get? _ _ i x hx] at hi
        rw [dupFirst_get? _ _ i x hx]
        have hfull := of_decide_eq_true (Option.some.inj hi)
        obtain ⟨y, hy, hk⟩ := hfull
        have : propKey hs hp y = propKey hs hp x := congrArg Prod.fst hk
        simp only [Option.some_inj, decide_eq_true_eq]
        exact ⟨y, hy, this⟩
      constructor
      · rw [List.length_insertionSort, List.length_insertionSort]
        exact maskFilter_length_mono (z :: zs) _ _ hpoint
      · intro r hr
        rw [List.mem_insertionSort, mem_maskFilter] at hr ⊢
        obtain ⟨i, hget, hmask⟩ := hr
        exact ⟨i, hget, hpoint i hmask⟩

/-- Witness for C5 at a concrete two-record input with one true duplicate. -/
theorem true_subset_all_witness :
    ((api_duplicates false true [vA, vA] (some "true")).duplicates.length ≤
      (api_duplicates false true [vA, vA] (some "all")).duplicates.length) ∧
    vA ∈ (api_duplicates false true [vA, vA] (some "all")).duplicates :=
  ⟨(true_subset_all false true [vA, vA]).1,
   (true_subset_all false true [vA, vA]).2 vA (by decide)⟩

/-! ## Claims C6 and C7: summary percentage and the empty-input response -/

/-- On a non-empty frame the summary's percentage is the returned-row count
over the total count, times 100, rounded to two decimals (line 530). -/
theorem api_duplicates_percent (hs hp : Bool) (z : Rec) (zs : List Rec) (ta : Option String) :
    ∃ sm, (api_duplicates hs hp (z :: zs) ta).summary = some sm ∧
      sm.percentDuplicates =
        round2 (((api_duplicates hs hp (z :: zs) ta).duplicates.length : ℚ) /
          (((z :: zs).length : Nat) : ℚ) * 100) := by
  refine ⟨_, rfl, ?_⟩
  show (if 0 < (z :: zs).length then
          round2 ((((api_duplicates hs hp (z :: zs) ta).duplicates.length : ℚ)) /
            ((((z :: zs).length : Nat)) : ℚ) * 100)
        else 0) = _
  rw [if_pos (by simp)]

/-- C6.  The percentage reported by the duplicate classifier equals
(returned rows / total rows) × 100 rounded to two decimals on every non-empty
record set; in particular a pair of identical records in mode `true` returns
exactly the one extra record and reports 50 percent. -/
theorem percent_duplicates_formula :
    (∀ (hs hp : Bool) (z : Rec) (zs : List Rec) (ta : Option String),
       ∃ sm, (api_duplicates hs hp (z :: zs) ta).summary = some sm ∧
         sm.percentDuplicates =
           round2 (((api_duplicates hs hp (z :: zs) ta).duplicates.length : ℚ) /
             (((z :: zs).length : Nat) : ℚ) * 100)) ∧
    (∀ (hs hp : Bool) (r : Rec),
       (api_duplicates hs hp [r, r] (some "true")).duplicates = [r] ∧
       ∃ sm, (api_duplicates hs hp [r, r] (some "true")).summary = some sm ∧
         sm.percentDuplicates = 50) := by
  refine ⟨fun hs hp z zs ta => api_duplicates_percent hs hp z zs ta, ?_⟩
  intro hs hp r
  have hdup : (api_duplicates hs hp [r, r] (some "true")).duplicates = [r] := by
    rw [api_duplicates_result]
    rw [show pyLower ((some "true").getD "all") = "true" from by decide, if_pos rfl]
    have hm : dupFirst (fullKey hs hp) [r, r] = [false, true] := by
      simp [dupFirst, dupFirstGo]
    rw [hm]
    rfl
  refine ⟨hdup, ?_⟩
  obtain ⟨sm, hsm, hpc⟩ := api_duplicates_percent hs hp r [r] (some "true")
  refine ⟨sm, hsm, ?_⟩
  rw [hpc, hdup]
  norm_num [round2, roundHalfEven]

/-- C7 counterexample.  On empty input the source answers
`{"total_rows": 0, "summary": {}, "duplicates": []}`: the summary object is
*empty* — it is not the all-zero summary of counts the claim describes. -/
theorem empty_input_summary_is_empty :
    (api_duplicates false true [] (some "true")).summary = none ∧
    (some zeroSummary : Option DupSummary) ≠ none := by
  exact ⟨rfl, by simp⟩

/-- C7 (amended).  For empty input the classifier returns the empty result
list, a zero total, and an *empty* summary object (no count fields at all);
the `returned` and `type` fields are likewise omitted. -/
theorem empty_input_response (hs hp : Bool) (ta : Option String) :
    api_duplicates hs hp [] ta =
      { totalRows := 0, returned := none, typ := none, summary := none,
        duplicates := [] } := rfl

/-! ## Claim C8: unknown grouping key / classification mode -/

theorem dupSelect_unknown (hs hp : Bool) (rs : List Rec) (d : String)
    (h1 : d ≠ "true") (h2 : d ≠ "variants") :
    dupSelect hs hp rs d = dupSelect hs hp rs "all" := by
  unfold dupSelect
  rw [if_neg h1, if_neg h2,
      if_neg (by decide : ¬("all" : String) = "true"),
      if_neg (by decide : ¬("all" : String) = "variants")]

/-- C8 counterexample.  An unknown classification mode is *not* reported as a
client error: `type=bogus` silently behaves like `all` (the `else` branch of
lines 501–509) and answers 200 with the mode echoed back. -/
theorem unknown_dup_type_counterexample :
    (api_duplicates false true [vA, vA] (some "bogus")).duplicates =
      (api_duplicates false true [vA, vA] (some "all")).duplicates ∧
    (api_duplicates false true [vA, vA] (some "bogus")).typ = some "bogus" ∧
    (api_duplicates false true [vA, vA] (some "bogus")).duplicates = [vA] := by
  decide

/-- C8 (amended).  `api_stats` does reject an unknown grouping key with a
client error naming the value — provided the filtered frame is non-empty
(an empty frame returns success before the dispatch) — but `api_duplicates`
never rejects an unknown classification mode: it behaves exactly as mode
`all`, with only the echoed `type` field differing. -/
theorem unknown_mode_handling :
    (∀ (hs hp : Bool) (z : Rec) (zs : List Rec) (oBy : Option String),
       pyLower (oBy.getD "all") ∉ ["all", "city", "province", "fsa", "agent", "broker"] →
       api_stats hs hp (z :: zs) oBy =
         Except.error ("Unknown grouping: " ++ pyLower (oBy.getD "all"))) ∧
    (∀ (hs hp : Bool) (z : Rec) (zs : List Rec) (ta : Option String),
       pyLower (ta.getD "all") ≠ "true" → pyLower (ta.getD "all") ≠ "variants" →
       api_duplicates hs hp (z :: zs) ta =
         { api_duplicates hs hp (z :: zs) (some "all") with
             typ := some (pyLower (ta.getD "all")) }) := by
  constructor
  · intro hs hp z zs oBy h
    simp only [api_stats]
    rw [if_neg (fun heq => h (by simp [heq])), if_neg (fun hmem => h (by simp [hmem]))]
  · intro hs hp z zs ta h1 h2
    have hsel : dupSelect hs hp (z :: zs) (pyLower (ta.getD "all")) =
        dupSelect hs hp (z :: zs) (pyLower ((some "all").getD "all")) := by
      rw [show pyLower ((some "all").getD "all") = "all" from by decide]
      exact dupSelect_unknown hs hp (z :: zs) _ h1 h2
    simp only [api_duplicates]
    rw [hsel]

/-- Witness for C8 (amended) at concrete unknown values. -/
theorem unknown_mode_handling_witness :
    api_stats false true [vA] (some "Bogus") =
      Except.error ("Unknown grouping: " ++ pyLower ((some "Bogus").getD "all")) ∧
    api_duplicates false true [vA, vA] (some "bogus") =
      { api_duplicates false true [vA, vA] (some "all") with
          typ := some (pyLower ((some "bogus").getD "all")) } :=
  ⟨unknown_mode_handling.1 false true vA [] (some "Bogus") (by decide),
   unknown_mode_handling.2 false true vA [vA] (some "bogus") (by decide) (by decide)⟩

/-! ## Claim C9: unparsable numeric filter values -/

/-- C9 counterexample.  An unparsable `limit` is not reported: `parse_int`
silently coerces it to the supplied default (50000 in the endpoints). -/
theorem parse_int_silent_default :
    pyInt "abc" = none ∧ parse_int (some "abc") (some 50000) = some 50000 := by decide

/-- C9 (amended).  `parse_int` falls back to its default whenever `int(...)`
fails, silently coercing unparsable limit/page values; and a non-numeric
`bedrooms` filter raises an uncaught `ValueError` in `api_property_details`
(the conversion happens outside the `try` block), surfacing as a 500 server
error rather than a client error. -/
theorem numeric_parse_failures :
    (∀ (s : String) (d : Option Int), pyInt s = none → parse_int (some s) d = d) ∧
    (∀ (a : DetailsArgs) (v : String), a.bedrooms = some v → v ≠ "" → pyInt v = none →
       api_property_details a =
         .uncaught ("invalid literal for int() with base 10: \x27" ++ v ++ "\x27")) := by
  constructor
  · intro s d h
    simp only [parse_int, h]
  · intro a v hb hv hpi
    unfold api_property_details buildDetailsQuery
    rw [hb]
    simp only [detailsIntStep, getTruthy, if_neg hv, hpi, Except.bind]

/-- Witness for C9 (amended) at concrete unparsable inputs. -/
theorem numeric_parse_failures_witness :
    parse_int (some "xyz") (some 100) = some 100 ∧
    api_property_details { bedrooms := some "abc" } =
      .uncaught ("invalid literal for int() with base 10: \x27abc\x27") :=
  ⟨numeric_parse_failures.1 "xyz" (some 100) (by decide),
   numeric_parse_failures.2 { bedrooms := some "abc" } "abc" rfl (by decide) (by decide)⟩
